import Mathlib

/-!
Shallow embedding of the job-scraper pipeline (`job_scraper.py`): the
candidate classifier (`filter_with_reason` and its helpers), the identity
and deduplication layer (`make_job_key`, first-occurrence dedup), the
cross-run lifecycle merge, and the aging report, together with theorems
settling the specification claims about them.

Strings are modelled on their character lists; Python's ASCII/Latin-1
string primitives (`strip`, `split`, `lower`, substring `in`) are embedded
as executable functions on `List Char`, and the three regular expressions
used by the classifier are embedded through a small backtracking matcher.
Timestamps are modelled as natural numbers (UTC seconds).
-/

namespace JobScraper

/-- The whitespace characters recognised by Python's `str.split()` /
`str.strip()` and by the regex class `\s` (ASCII range). -/
def pyIsSpace (c : Char) : Bool :=
  c == ' ' || c == '\t' || c == '\n' || c == '\x0d' || c == '\x0b' || c == '\x0c'

/-- `str.lower` on one character, for the ASCII and Latin-1 letter ranges. -/
def lowerChar (c : Char) : Char :=
  if 'A' ≤ c && c ≤ 'Z' then Char.ofNat (c.toNat + 32)
  else if 0xC0 ≤ c.toNat && c.toNat ≤ 0xDE && c.toNat ≠ 0xD7 then Char.ofNat (c.toNat + 32)
  else c

/-- Python `s.lower()`. -/
def pyLower (s : String) : String :=
  String.mk (s.data.map lowerChar)

/-- Python `s.strip()`: drop leading and trailing whitespace. -/
def pyStrip (s : String) : String :=
  String.mk (((s.data.dropWhile pyIsSpace).reverse.dropWhile pyIsSpace).reverse)

/-- Accumulator-based splitting of a character list into maximal
whitespace-free runs (the accumulator holds the current word reversed). -/
def wordsAux (acc : List Char) : List Char → List (List Char)
  | [] => if acc.isEmpty then [] else [acc.reverse]
  | c :: r =>
    if pyIsSpace c then
      (if acc.isEmpty then wordsAux [] r else acc.reverse :: wordsAux [] r)
    else wordsAux (c :: acc) r

/-- Python `s.split()` with no separator: whitespace-separated words,
empty pieces dropped (also the behaviour of `re.split(r'\s+')` after the
`if w` filter in `is_titlecase_like`). -/
def pySplit (s : String) : List String :=
  (wordsAux [] s.data).map String.mk

/-- Does `n` occur at the head of `l`? -/
def startsList : List Char → List Char → Bool
  | [], _ => true
  | _ :: _, [] => false
  | a :: as, b :: bs => a == b && startsList as bs

/-- Does `n` occur as a contiguous run somewhere in the second list? -/
def subList (n : List Char) : List Char → Bool
  | [] => n.isEmpty
  | c :: r => startsList n (c :: r) || subList n r

/-- Python's substring test `needle in hay`. -/
def strContains (hay needle : String) : Bool :=
  subList needle.data hay.data

/-! ### A small backtracking matcher for the classifier's regexes

A matcher takes the character just before the current position (for the
word-boundary assertion `\b`) and the remaining input, and returns every
possible state after a match: the last consumed character and the rest. -/

/-- Regex-matcher state transformers: previous character and remaining
input to the list of possible (previous character, remaining input)
states after the piece has matched. -/
def Matcher : Type :=
  Option Char → List Char → List (Option Char × List Char)

/-- Match one character satisfying `p`. -/
def charM (p : Char → Bool) : Matcher := fun _ rest =>
  match rest with
  | [] => []
  | c :: r => if p c then [(some c, r)] else []

/-- Sequencing of matchers. -/
def seqM (a b : Matcher) : Matcher := fun pr rest =>
  (a pr rest).flatMap (fun s => b s.1 s.2)

/-- Alternation of matchers (`|`). -/
def altM (a b : Matcher) : Matcher := fun pr rest =>
  a pr rest ++ b pr rest

/-- Optional piece (`?`). -/
def optM (a : Matcher) : Matcher := fun pr rest =>
  (pr, rest) :: a pr rest

/-- Python's `\w` word characters (ASCII letters, digits, underscore). -/
def isWordChar (c : Char) : Bool :=
  c.isAlphanum || c == '_'

/-- Word-character test on an optional character (string edge counts as
a non-word character). -/
def isWordOpt : Option Char → Bool
  | none => false
  | some c => isWordChar c

/-- The word-boundary assertion `\b`: consumes nothing, succeeds when
exactly one side of the position is a word character. -/
def boundM : Matcher := fun pr rest =>
  if isWordOpt pr != isWordOpt rest.head? then [(pr, rest)] else []

/-- All states reachable by consuming one or more characters satisfying
`p` (the nondeterministic `+` on a character class). -/
def plusAux (p : Char → Bool) (_ : Option Char) : List Char → List (Option Char × List Char)
  | [] => []
  | c :: r => if p c then (some c, r) :: plusAux p (some c) r else []

/-- One-or-more characters of a class (`+`). -/
def plusM (p : Char → Bool) : Matcher :=
  plusAux p

/-- Exactly `n` characters of a class (`{n}`). -/
def repM (p : Char → Bool) : Nat → Matcher
  | 0 => fun pr rest => [(pr, rest)]
  | n + 1 => seqM (charM p) (repM p n)

/-- A literal character sequence. -/
def litM : List Char → Matcher
  | [] => fun pr rest => [(pr, rest)]
  | c :: r => seqM (charM (fun x => x == c)) (litM r)

/-- Try the matcher at the current position and at every later start
position (the existence semantics of `re.search`). -/
def searchAux (m : Matcher) (pr : Option Char) : List Char → Bool
  | [] => !(m pr []).isEmpty
  | c :: r => !(m pr (c :: r)).isEmpty || searchAux m (some c) r

/-- `re.search(pattern, s)` truthiness: does the pattern match anywhere? -/
def reSearch (m : Matcher) (s : String) : Bool :=
  searchAux m none s.data

/-- The separator class `[-.\s]` of the phone pattern. -/
def sepChar (c : Char) : Bool :=
  c == '-' || c == '.' || pyIsSpace c

/-- A decimal digit (`\d`). -/
def digitChar (c : Char) : Bool :=
  c.isDigit

/-- `PHONE_RE = \b(?:\+?1[-.\s]?)?(?:\(?\d{3}\)?[-.\s]?\d{3}[-.\s]?\d{4})\b`. -/
def PHONE_RE : Matcher :=
  seqM boundM
    (seqM (optM (seqM (optM (charM (fun c => c == '+')))
                      (seqM (charM (fun c => c == '1')) (optM (charM sepChar)))))
      (seqM (optM (charM (fun c => c == '(')))
        (seqM (repM digitChar 3)
          (seqM (optM (charM (fun c => c == ')')))
            (seqM (optM (charM sepChar))
              (seqM (repM digitChar 3)
                (seqM (optM (charM sepChar))
                  (seqM (repM digitChar 4) boundM))))))))

/-- `EMAIL_RE = \b\S+@\S+\.\S+\b`. -/
def EMAIL_RE : Matcher :=
  seqM boundM
    (seqM (plusM (fun c => !pyIsSpace c))
      (seqM (charM (fun c => c == '@'))
        (seqM (plusM (fun c => !pyIsSpace c))
          (seqM (charM (fun c => c == '.'))
            (seqM (plusM (fun c => !pyIsSpace c)) boundM)))))

/-- `URL_RE = https?://|www\.`. -/
def URL_RE : Matcher :=
  altM (seqM (litM "http".data) (seqM (optM (charM (fun c => c == 's'))) (litM "://".data)))
       (litM "www.".data)

/-- `\binc\.?\b|\bllc\b|\bcorp\.?\b`, the legal-entity-suffix pattern of
the `company_name` rule. -/
def COMPANY_RE : Matcher :=
  altM (seqM boundM (seqM (litM "inc".data) (seqM (optM (charM (fun c => c == '.'))) boundM)))
    (altM (seqM boundM (seqM (litM "llc".data) boundM))
      (seqM boundM (seqM (litM "corp".data) (seqM (optM (charM (fun c => c == '.'))) boundM))))

/-- `UPPER_RE = ^[^a-z]*$` under `re.match`: the string has no lowercase
ASCII letter. -/
def UPPER_RE_match (s : String) : Bool :=
  s.data.all (fun c => !('a' ≤ c && c ≤ 'z'))

/-- ASCII uppercase letter. -/
def isUpperAZ (c : Char) : Bool :=
  'A' ≤ c && c ≤ 'Z'

/-- ASCII lowercase letter. -/
def isLowerAZ (c : Char) : Bool :=
  'a' ≤ c && c ≤ 'z'

/-- `re.fullmatch(r'[A-Z]{2,5}', w)`: a 2–5 letter all-caps acronym. -/
def acrOk (l : List Char) : Bool :=
  decide (2 ≤ l.length) && decide (l.length ≤ 5) && l.all isUpperAZ

/-- After the hyphen and its capital: one or more lowercase letters to the
end of the word. -/
def tcHyphLow : List Char → Bool
  | [] => false
  | c :: r => isLowerAZ c && r.all isLowerAZ

/-- After the hyphen: a capital followed by one or more lowercase letters. -/
def tcHyph : List Char → Bool
  | [] => false
  | c :: r => isUpperAZ c && tcHyphLow r

/-- After the leading capital and at least one lowercase letter: more
lowercase letters, then optionally `-` and a capitalised tail. -/
def tcCont : List Char → Bool
  | [] => true
  | c :: r => if isLowerAZ c then tcCont r else if c == '-' then tcHyph r else false

/-- `re.fullmatch(r'[A-Z][a-z]+(?:-[A-Z][a-z]+)?', w)`: a Title-Cased
word, optionally hyphenated. -/
def tcWord : List Char → Bool
  | [] => false
  | c :: r =>
    isUpperAZ c &&
      (match r with
       | [] => false
       | d :: r2 => isLowerAZ d && tcCont r2)

/-- The `ok` word-shape test inside `is_titlecase_like`. -/
def wordShapeOk (w : String) : Bool :=
  acrOk w.data || tcWord w.data

/-- `is_titlecase_like(title)`: at least `max(1, len(words)//2)` of the
whitespace-separated words are acronyms or Title-Cased. -/
def is_titlecase_like (title : String) : Bool :=
  let words := pySplit title
  if words.isEmpty then false
  else decide (max 1 (words.length / 2) ≤ (words.filter wordShapeOk).length)

/-! ### Blocklist -/

/-- `DEFAULT_BLOCKLIST`, in source order.  The second-to-last entry of the
third group is the two-character string `U+00C2 U+00A9` appearing in the
source file. -/
def DEFAULT_BLOCKLIST : List String := [
  "open positions", "we are hiring", "hiring", "join our mailing list",
  "join our newsletter", "click to apply", "apply now", "benefits",
  "about us", "mission statement", "equal opportunity", "contact us",
  "locations", "hours", "privacy policy", "terms of service",
  "subscribe", "sign up", "follow us", "news", "events",
  "sales event", "promotion", "coupon", "contest", "sweepstakes",
  "blog", "press",
  "accessibility statement", "terms of use", "all rights reserved",
  "powered by", "copyright", "Â©",
  "employment application", "download application", "apply online",
  "apply here", "print application"
]

/-- Code-point lexicographic order on character lists (Python string `<`). -/
def lexLt : List Char → List Char → Bool
  | [], [] => false
  | [], _ :: _ => true
  | _ :: _, [] => false
  | a :: as, b :: bs =>
    if a.toNat < b.toNat then true
    else if a == b then lexLt as bs
    else false

/-- Python string comparison `a < b`. -/
def strLt (a b : String) : Bool :=
  lexLt a.data b.data

/-- Insert a string into an ascending list. -/
def insertAscStr (x : String) : List String → List String
  | [] => [x]
  | y :: r => if strLt x y then x :: y :: r else y :: insertAscStr x r

/-- Python `sorted` on strings (ascending by code point). -/
def sortAscStr : List String → List String
  | [] => []
  | x :: r => insertAscStr x (sortAscStr r)

/-- Keep the first occurrence of each string (the effect of `set(...)`
before sorting; the default entries are pairwise distinct). -/
def dedupStrAux (seen : List String) : List String → List String
  | [] => []
  | x :: r => if seen.contains x then dedupStrAux seen r else x :: dedupStrAux (x :: seen) r

/-- `load_blocklist()` with no user blocklist file: the sorted,
duplicate-free default phrase set. -/
def load_blocklist : List String :=
  sortAscStr (dedupStrAux [] DEFAULT_BLOCKLIST)

/-- The process-wide `BLOCKLIST`. -/
def BLOCKLIST : List String :=
  load_blocklist

/-! ### The classifier -/

/-- `filter_with_reason(title, description)`: the rule chain deciding
keep/reject plus the rejection reason, translated branch for branch from
the source. -/
def filter_with_reason (title : String) (description : String := "") : Bool × String :=
  let t := pyStrip title
  let d := pyStrip description
  let tl := pyLower t
  let dl := pyLower d
  if tl.data.length < 5 then (false, "too_short")
  else if (pySplit t).length < 2 then (false, "one_word_header")
  else if reSearch PHONE_RE t || reSearch EMAIL_RE t || reSearch URL_RE t then
    (false, "contact_info")
  else if reSearch COMPANY_RE tl then (false, "company_name")
  else if UPPER_RE_match t && (pySplit t).length ≤ 3 then (false, "all_caps_header")
  else if (t.data.getLast? == some '.' || t.data.getLast? == some '!'
           || t.data.getLast? == some '?') && 6 ≤ (pySplit t).length then
    (false, "sentence_like")
  else
    match BLOCKLIST.find? (fun p => strContains tl p || strContains dl p) with
    | some p => (false, "block:" ++ p)
    | none =>
      if strContains tl "required" && (pySplit t).length ≤ 3 then (false, "requirement_only")
      else if !is_titlecase_like t && 6 < (pySplit t).length then (false, "not_title_like")
      else (true, "")

/-- `keep_row`: the boolean part of the classification. -/
def keep_row (title : String) (description : String := "") : Bool :=
  (filter_with_reason title description).1

/-! ### Data model, identity and deduplication -/

/-- One extracted fragment before classification.  The adapters always
populate `company`, `source`, `title`, `location` and `url`; `description`
is the optional snippet (defaulted to the empty string, matching
`j.get("description", "")`). -/
structure Candidate where
  company : String
  source : String
  title : String
  location : String
  url : String
  description : String := ""
deriving DecidableEq, Repr

/-- `normalize_space`: collapse internal whitespace and trim. -/
def normalize_space (s : String) : String :=
  " ".intercalate (pySplit s)

/-- `make_job_key(j)`: the lower-cased, pipe-joined five-field identity. -/
def make_job_key (j : Candidate) : String :=
  "|".intercalate [pyLower j.company, pyLower j.source, pyLower j.title,
                   pyLower j.location, pyLower j.url]

/-- First-occurrence-per-key deduplication, with the set of already seen
keys threaded through. -/
def dedupAux (seen : List String) : List Candidate → List Candidate
  | [] => []
  | j :: rest =>
    let k := make_job_key j
    if seen.contains k then dedupAux seen rest
    else j :: dedupAux (k :: seen) rest

/-- The de-dupe loop of `run_all`: keep the first `Candidate` per JobKey,
preserving order. -/
def dedup (rows : List Candidate) : List Candidate :=
  dedupAux [] rows

/-- One row of the Postings output (the surviving fields after the
temporary `description` is dropped). -/
structure Posting where
  company : String
  source : String
  title : String
  location : String
  url : String
deriving DecidableEq, Repr

/-- Drop the temporary description field. -/
def toPosting (c : Candidate) : Posting :=
  ⟨c.company, c.source, c.title, c.location, c.url⟩

/-! ### Lifecycle state and aging -/

/-- A persisted lifecycle row.  Timestamps are modelled as natural
numbers (UTC seconds). -/
structure LifecycleEntry where
  job_key : String
  company : String
  source : String
  title : String
  location : String
  url : String
  first_seen : Nat
  last_seen : Nat
deriving DecidableEq, Repr

/-- A fresh state row for a candidate first seen at `now`
(`first_seen = last_seen = now`). -/
def newEntry (now : Nat) (c : Candidate) : LifecycleEntry :=
  ⟨make_job_key c, c.company, c.source, c.title, c.location, c.url, now, now⟩

/-- The JobKeys of this run's candidates (`set(run_df["job_key"])`). -/
def runKeys (run : List Candidate) : List String :=
  run.map make_job_key

/-- The JobKeys present in persisted state (`set(state["job_key"])`). -/
def stateKeys (state : List LifecycleEntry) : List String :=
  state.map (fun e => e.job_key)

/-- The state merge of `run_all`: on an empty state, every run row becomes
a fresh entry; otherwise rows whose key reappears get `last_seen := now`
in place, and run rows with unseen keys are appended as fresh entries. -/
def mergeState (state : List LifecycleEntry) (run : List Candidate) (now : Nat) :
    List LifecycleEntry :=
  if state.isEmpty then run.map (newEntry now)
  else
    state.map (fun e =>
      if (runKeys run).contains e.job_key then { e with last_seen := now } else e)
    ++ (run.filter (fun c => !((stateKeys state).contains (make_job_key c)))).map (newEntry now)

/-- `age_days`: whole days between `now` and `first_seen`. -/
def ageDays (now first : Nat) : Nat :=
  (now - first) / 86400

/-- The ascending-by-`age_days` order underlying the sort's argsort. -/
def agedLE (a b : LifecycleEntry × Nat) : Prop :=
  a.2 ≤ b.2

instance : DecidableRel agedLE := fun a b => Nat.decLe a.2 b.2

/-- The descending-by-`age_days` order the report ends up sorted by. -/
def agedGE (a b : LifecycleEntry × Nat) : Prop :=
  b.2 ≤ a.2

/-- The aged report: every state row paired with its age, filtered to
`age_days ≥ 28`, then sorted the way
`sort_values("age_days", ascending=False)` sorts: pandas argsorts the
column ascending and reverses the resulting indexer, so the report is
descending and rows of equal age appear in reverse state order.  (The
ascending kernel sort is stable here, as numpy's introsort reduces to an
insertion sort on arrays this small; no tie order is guaranteed in
general, the reversal being the library's documented mechanism.) -/
def agedOf (state : List LifecycleEntry) (now : Nat) : List (LifecycleEntry × Nat) :=
  (List.insertionSort agedLE
    ((state.map (fun e => (e, ageDays now e.first_seen))).filter (fun p => 28 ≤ p.2))).reverse

/-! ### The orchestrator -/

/-- A rejection row: title, reason, snippet truncated to 250 characters. -/
structure Rejection where
  title : String
  reason : String
  snippet : String
deriving DecidableEq, Repr

/-- Truncation `s[:250]` of the rejection snippet. -/
def snip (s : String) : String :=
  String.mk (s.data.take 250)

/-- What one run writes.  `stateOut`/`aged` are `none` when the run takes
the early `return` (no rows this run): the state and aged tables are then
not written at all. -/
structure RunResult where
  postings : List Posting
  rejections : List Rejection
  stateOut : Option (List LifecycleEntry)
  aged : Option (List (LifecycleEntry × Nat))
deriving Repr

/-- One row of the loadsheet consumed by the orchestrator. -/
structure SourceConfig where
  company : String
  source_type : String
  url : String
  selector_card : String := ""
  selector_title : String := ""
  selector_location : String := ""
  selector_link : String := ""
deriving Repr

/-- The scraping loop of `run_all`, with the per-platform adapters (and
the per-source try/except) abstracted as a total function from a config
row to its raw candidates: the raw rows of all sources, in order. -/
def gatherRaw (adapter : SourceConfig → List Candidate) (sources : List SourceConfig) :
    List Candidate :=
  sources.flatMap adapter

/-- `run_all` from the raw candidate rows on: de-dupe by stable key, then
filter with reason tracking, write the postings/rejections tables, and —
unless the run produced no rows — merge into lifecycle state and emit the
aged report. -/
def run_all (raw_rows : List Candidate) (state : List LifecycleEntry) (now : Nat) :
    RunResult :=
  let uniq := dedup raw_rows
  let filtered := uniq.filter (fun j => keep_row j.title j.description)
  let rejections := (uniq.filter (fun j => !keep_row j.title j.description)).map
    (fun j => ⟨j.title, (filter_with_reason j.title j.description).2, snip j.description⟩)
  let postings := filtered.map toPosting
  if filtered.isEmpty then
    { postings := postings, rejections := rejections, stateOut := none, aged := none }
  else
    let state2 := mergeState state filtered now
    { postings := postings, rejections := rejections,
      stateOut := some state2, aged := some (agedOf state2 now) }

/-- Modelled from the spec: the pipeline order the specification claims —
raw candidates are first classified and only the kept ones are then
deduplicated by JobKey.  (For comparison with the source's `run_all`,
which deduplicates first.) -/
def claimedPipeline (raw : List Candidate) : List Posting :=
  (dedup (raw.filter (fun j => keep_row j.title j.description))).map toPosting

/-! ### The classifier as an ordered rule chain

Each rule maps the (stripped) title and snippet to `some reason` when it
fires.  `applyRules` evaluates a rule list left to right and short-circuits
at the first match, so the claim that the classifier evaluates its rules
in a fixed order is the statement that `filter_with_reason` coincides with
`applyRules` on the list below. -/

/-- Rule 1, `too_short`. -/
def tooShortRule (t _d : String) : Option String :=
  if (pyLower t).data.length < 5 then some "too_short" else none

/-- Rule 2, `one_word_header`. -/
def oneWordRule (t _d : String) : Option String :=
  if (pySplit t).length < 2 then some "one_word_header" else none

/-- Rule 3, `contact_info`. -/
def contactRule (t _d : String) : Option String :=
  if reSearch PHONE_RE t || reSearch EMAIL_RE t || reSearch URL_RE t then
    some "contact_info"
  else none

/-- Rule 4, `company_name`. -/
def companyRule (t _d : String) : Option String :=
  if reSearch COMPANY_RE (pyLower t) then some "company_name" else none

/-- Rule 5, `all_caps_header`. -/
def allCapsRule (t _d : String) : Option String :=
  if UPPER_RE_match t && (pySplit t).length ≤ 3 then some "all_caps_header" else none

/-- Rule 6, `sentence_like`. -/
def sentenceRule (t _d : String) : Option String :=
  if (t.data.getLast? == some '.' || t.data.getLast? == some '!'
      || t.data.getLast? == some '?') && 6 ≤ (pySplit t).length then
    some "sentence_like"
  else none

/-- Rule 7, the blocklist scan `block:<phrase>`. -/
def blockRule (t d : String) : Option String :=
  (BLOCKLIST.find? (fun p => strContains (pyLower t) p || strContains (pyLower d) p)).map
    (fun p => "block:" ++ p)

/-- Rule 8, `requirement_only`. -/
def requirementRule (t _d : String) : Option String :=
  if strContains (pyLower t) "required" && (pySplit t).length ≤ 3 then
    some "requirement_only"
  else none

/-- Rule 9, `not_title_like`. -/
def notTitleRule (t _d : String) : Option String :=
  if !is_titlecase_like t && 6 < (pySplit t).length then some "not_title_like" else none

/-- The classifier's rules in their fixed evaluation order. -/
def ruleOrder : List (String → String → Option String) :=
  [tooShortRule, oneWordRule, contactRule, companyRule, allCapsRule,
   sentenceRule, blockRule, requirementRule, notTitleRule]

/-- Left-to-right, short-circuiting evaluation of a rule list: the first
matching rule determines the (keep, reason) outcome; when none matches,
keep with empty reason. -/
def applyRules : List (String → String → Option String) → String → String → Bool × String
  | [], _, _ => (true, "")
  | r :: rs, t, d =>
    match r t d with
    | some s => (false, s)
    | none => applyRules rs t d

/-- Outcome of a branch guarded by an `Option`-producing `if`. -/
theorem matchOptIte (c : Prop) [Decidable c] (s : String) (k : Bool × String) :
    (match (if c then some s else none) with
     | some r => ((false : Bool), r)
     | none => k) = if c then (false, s) else k := by
  split_ifs <;> rfl

/-- Outcome of the blocklist branch: matching on the mapped `find?` is
matching on `find?` itself with the `block:` tag applied. -/
theorem matchOptMap (o : Option String) (k : Bool × String) :
    (match o.map (fun p => "block:" ++ p) with
     | some r => ((false : Bool), r)
     | none => k) =
    (match o with
     | some p => ((false : Bool), "block:" ++ p)
     | none => k) := by
  cases o <;> rfl

/-- `filter_with_reason` is exactly the short-circuit evaluation of the
nine rules in their fixed order. -/
theorem filter_with_reason_eq_chain (t d : String) :
    filter_with_reason t d = applyRules ruleOrder (pyStrip t) (pyStrip d) := by
  simp only [filter_with_reason, ruleOrder, applyRules, tooShortRule, oneWordRule,
    contactRule, companyRule, allCapsRule, sentenceRule, blockRule, requirementRule,
    notTitleRule, matchOptIte, matchOptMap]

/-! ### Lifecycle merge lemmas -/

/-- The per-entry update of the merge: set `last_seen := now` when the
entry's key reappears in this run, leave the row untouched otherwise. -/
def touchEntry (run : List Candidate) (now : Nat) (e : LifecycleEntry) : LifecycleEntry :=
  if (runKeys run).contains e.job_key then { e with last_seen := now } else e

/-- The rows appended by the merge: fresh entries for run candidates whose
key is not yet in state. -/
def freshRows (state : List LifecycleEntry) (run : List Candidate) (now : Nat) :
    List LifecycleEntry :=
  (run.filter (fun c => !((stateKeys state).contains (make_job_key c)))).map (newEntry now)

/-- The two branches of `mergeState` coincide: on an empty state the
update map is empty and no key is filtered away, so the merge is always
"update every state row in place, then append the fresh rows". -/
theorem mergeState_eq (state : List LifecycleEntry) (run : List Candidate) (now : Nat) :
    mergeState state run now = state.map (touchEntry run now) ++ freshRows state run now := by
  cases state with
  | nil =>
    simp only [mergeState, freshRows, stateKeys, List.map_nil, List.isEmpty_nil, if_pos,
      List.contains_nil, Bool.not_false, List.filter_true, List.nil_append]
  | cons e rest => rfl

/-- The merge never shrinks the state. -/
theorem length_le_mergeState (state : List LifecycleEntry) (run : List Candidate) (now : Nat) :
    state.length ≤ (mergeState state run now).length := by
  rw [mergeState_eq, List.length_append, List.length_map]
  exact Nat.le_add_right _ _

/-- Position `i` of the merged state is the touched version of position
`i` of the old state. -/
theorem mergeState_get (state : List LifecycleEntry) (run : List Candidate) (now : Nat)
    (i : Nat) (h : i < state.length) (h2 : i < (mergeState state run now).length) :
    (mergeState state run now).get ⟨i, h2⟩ = touchEntry run now (state.get ⟨i, h⟩) := by
  simp only [List.get_eq_getElem]
  revert h2
  rw [mergeState_eq]
  intro h2
  rw [List.getElem_append_left (by simpa using h), List.getElem_map]

/-- A run candidate whose key is absent from state contributes a fresh
entry to the merged state. -/
theorem newEntry_mem_mergeState (state : List LifecycleEntry) (run : List Candidate)
    (now : Nat) (c : Candidate) (hc : c ∈ run)
    (hk : (stateKeys state).contains (make_job_key c) = false) :
    newEntry now c ∈ mergeState state run now := by
  rw [mergeState_eq, List.mem_append]
  right
  exact List.mem_map_of_mem _ (List.mem_filter.mpr ⟨hc, by rw [hk]; rfl⟩)

/-- `touchEntry` preserves the job key. -/
theorem touchEntry_job_key (run : List Candidate) (now : Nat) (e : LifecycleEntry) :
    (touchEntry run now e).job_key = e.job_key := by
  unfold touchEntry
  split <;> rfl

/-- Looking an existing key up in the merged state finds the touched
version of the old entry. -/
theorem find?_mergeState (state : List LifecycleEntry) (run : List Candidate) (now : Nat)
    (k : String) (e : LifecycleEntry)
    (h : state.find? (fun x => x.job_key == k) = some e) :
    (mergeState state run now).find? (fun x => x.job_key == k)
      = some (touchEntry run now e) := by
  rw [mergeState_eq, List.find?_append, List.find?_map]
  have hp : ((fun x : LifecycleEntry => x.job_key == k) ∘ touchEntry run now)
      = fun x : LifecycleEntry => x.job_key == k := by
    funext x
    simp [Function.comp, touchEntry_job_key]
  rw [hp, h]
  rfl

/-! ### Aged-report lemmas -/

instance : IsTotal (LifecycleEntry × Nat) agedLE :=
  ⟨fun a b => Nat.le_total a.2 b.2⟩

instance : IsTrans (LifecycleEntry × Nat) agedLE :=
  ⟨fun _ _ _ hab hbc => le_trans hab hbc⟩

/-! ### Claim theorems -/

/-- C1: the classifier evaluates its rules in the fixed order
`too_short`, `one_word_header`, `contact_info`, `company_name`,
`all_caps_header`, `sentence_like`, `block:<phrase>`, `requirement_only`,
`not_title_like`, the first matching rule deciding the (keep, reason)
result; in particular the sentence-like title
"We are hiring great people for our team today!" is rejected as
`sentence_like` (before the blocklist scan sees its blocklisted phrase),
and "Apply Now" is rejected as `block:apply now`. -/
theorem claim_C1_rule_order :
    (∀ t d, filter_with_reason t d = applyRules ruleOrder (pyStrip t) (pyStrip d))
    ∧ filter_with_reason "We are hiring great people for our team today!" ""
        = (false, "sentence_like")
    ∧ filter_with_reason "Apply Now" "" = (false, "block:apply now") :=
  ⟨filter_with_reason_eq_chain, by decide, by decide⟩

/-- A candidate whose company field carries a redundant internal double
space. -/
def wsA : Candidate := ⟨"Acme  Lumber", "Indeed", "Driver", "WI", "url1", ""⟩

/-- The same candidate with the company's internal whitespace collapsed. -/
def wsB : Candidate := ⟨"Acme Lumber", "Indeed", "Driver", "WI", "url1", ""⟩

/-- C5 counterexample: two Candidates that differ only in redundant
internal whitespace in the company field receive different JobKeys —
`make_job_key` lowercases its fields but does not whitespace-normalize
them. -/
theorem claim_C5_counterexample :
    normalize_space wsA.company = normalize_space wsB.company
    ∧ wsA.source = wsB.source ∧ wsA.title = wsB.title
    ∧ wsA.location = wsB.location ∧ wsA.url = wsB.url
    ∧ wsA.company ≠ wsB.company
    ∧ make_job_key wsA ≠ make_job_key wsB := by
  decide

/-- C5 amended: two Candidates differing only in letter case in any of
the five key fields (equivalently, with field-wise equal lowercasings)
yield the same JobKey. -/
theorem claim_C5_amended (c1 c2 : Candidate)
    (h1 : pyLower c1.company = pyLower c2.company)
    (h2 : pyLower c1.source = pyLower c2.source)
    (h3 : pyLower c1.title = pyLower c2.title)
    (h4 : pyLower c1.location = pyLower c2.location)
    (h5 : pyLower c1.url = pyLower c2.url) :
    make_job_key c1 = make_job_key c2 := by
  simp only [make_job_key, h1, h2, h3, h4, h5]

/-- C5 witness: the spec's case-variant pair collapses to one JobKey. -/
theorem claim_C5_amended_witness :
    make_job_key ⟨"Acme", "Indeed", "Driver", "WI", "url1", ""⟩
      = make_job_key ⟨"acme", "indeed", "driver", "wi", "URL1", ""⟩ :=
  claim_C5_amended _ _ (by decide) (by decide) (by decide) (by decide) (by decide)

/-- A candidate whose company field itself contains the `|` separator. -/
def pipeA : Candidate := ⟨"a|b", "c", "Driver", "", "u", ""⟩

/-- A different candidate whose fields pipe-join to the same key. -/
def pipeB : Candidate := ⟨"a", "b|c", "Driver", "", "u", ""⟩

/-- C10: `make_job_key` is not injective even on whitespace- and
case-normalized Candidates: a `|` inside a field is not escaped, so two
Candidates with different fields share a JobKey and dedup collapses them
into one posting (and they would form one lifecycle entry). -/
theorem claim_C10_key_collision :
    make_job_key pipeA = make_job_key pipeB
    ∧ pipeA ≠ pipeB
    ∧ pipeA.company ≠ pipeB.company
    ∧ (normalize_space pipeA.company = pipeA.company
        ∧ normalize_space pipeA.source = pipeA.source
        ∧ normalize_space pipeA.title = pipeA.title
        ∧ normalize_space pipeA.location = pipeA.location
        ∧ normalize_space pipeA.url = pipeA.url)
    ∧ (normalize_space pipeB.company = pipeB.company
        ∧ normalize_space pipeB.source = pipeB.source
        ∧ normalize_space pipeB.title = pipeB.title
        ∧ normalize_space pipeB.location = pipeB.location
        ∧ normalize_space pipeB.url = pipeB.url)
    ∧ (pyLower pipeA.company = pipeA.company ∧ pyLower pipeA.source = pipeA.source
        ∧ pyLower pipeA.title = "driver" ∧ pyLower pipeB.company = pipeB.company
        ∧ pyLower pipeB.source = pipeB.source)
    ∧ dedup [pipeA, pipeB] = [pipeA]
    ∧ (newEntry 0 pipeA).job_key = (newEntry 0 pipeB).job_key := by
  decide

/-- C6 counterexample: with a present-but-empty SourceConfig table the
run completes and writes an empty Postings table, but it takes the early
return that skips aging: no Aged table is produced at all (in particular
not an empty one). -/
theorem claim_C6_counterexample :
    (run_all (gatherRaw (fun _ => []) []) [] 0).postings = []
    ∧ (run_all (gatherRaw (fun _ => []) []) [] 0).aged = none
    ∧ (run_all (gatherRaw (fun _ => []) []) [] 0).aged ≠ some [] := by
  decide

/-- C6 amended: with zero configured sources the run completes without
error, produces empty Postings and Rejections tables, and skips the aging
step entirely — neither the state table nor the Aged table is written. -/
theorem claim_C6_amended (adapter : SourceConfig → List Candidate)
    (state : List LifecycleEntry) (now : Nat) :
    (run_all (gatherRaw adapter []) state now).postings = []
    ∧ (run_all (gatherRaw adapter []) state now).rejections = []
    ∧ (run_all (gatherRaw adapter []) state now).stateOut = none
    ∧ (run_all (gatherRaw adapter []) state now).aged = none := by
  refine ⟨rfl, rfl, rfl, rfl⟩

/-- A raw candidate whose snippet contains a blocklisted phrase, so the
classifier rejects it. -/
def cexA : Candidate := ⟨"acme", "web", "Boom Truck Driver", "", "u", "apply now"⟩

/-- The same posting surfaced again with an empty snippet, which the
classifier keeps; both candidates share one JobKey. -/
def cexB : Candidate := ⟨"acme", "web", "Boom Truck Driver", "", "u", ""⟩

/-- C2 counterexample: the orchestrator deduplicates the raw candidates
before classifying them, and the two orders are observably different.
With the rejected first occurrence `cexA` and the acceptable duplicate
`cexB`, the code's dedup-first pipeline drops everything, while the
claimed classify-first pipeline keeps the posting. -/
theorem claim_C2_counterexample :
    make_job_key cexA = make_job_key cexB
    ∧ (run_all [cexA, cexB] [] 0).postings = []
    ∧ claimedPipeline [cexA, cexB] = [toPosting cexB]
    ∧ (run_all [cexA, cexB] [] 0).postings ≠ claimedPipeline [cexA, cexB] := by
  decide

/-- C2 amended: in every run the orchestrator deduplicates the raw
Candidates by JobKey first and classifies the unique Candidates second;
the set handed to the lifecycle tracker (whenever the run reaches the
merge) is post-dedup, post-classification in that order. -/
theorem claim_C2_amended (raw : List Candidate) (state : List LifecycleEntry) (now : Nat)
    (h : (dedup raw).filter (fun j => keep_row j.title j.description) ≠ []) :
    (run_all raw state now).postings
        = ((dedup raw).filter (fun j => keep_row j.title j.description)).map toPosting
    ∧ (run_all raw state now).stateOut
        = some (mergeState state
            ((dedup raw).filter (fun j => keep_row j.title j.description)) now) := by
  have hne : ((dedup raw).filter (fun j => keep_row j.title j.description)).isEmpty = false :=
    List.isEmpty_eq_false.mpr h
  simp only [run_all, hne, Bool.false_eq_true, if_false]
  trivial

/-- C2 witness: a concrete run through the amended pipeline order. -/
theorem claim_C2_amended_witness :
    (run_all [cexB] [] 5).postings = [toPosting cexB]
    ∧ (run_all [cexB] [] 5).stateOut = some [newEntry 5 cexB] := by
  have h := claim_C2_amended [cexB] [] 5 (by decide)
  refine ⟨h.1.trans (by decide), h.2.trans (by decide)⟩

/-- C3: the lifecycle merge is a frame update.  Every state row keeps its
position; a row whose JobKey reappears in the run gets exactly
`last_seen := now` (all other fields unchanged, as the record update
shows), a row whose JobKey is absent is left entirely unchanged, and
every run candidate with a fresh JobKey is inserted as a new entry with
`first_seen = last_seen = now`. -/
theorem claim_C3_lifecycle_frame (state : List LifecycleEntry) (run : List Candidate)
    (now : Nat) :
    (∀ i (h : i < state.length),
      ∃ h2 : i < (mergeState state run now).length,
        (mergeState state run now).get ⟨i, h2⟩ =
          (if (runKeys run).contains (state.get ⟨i, h⟩).job_key then
            { state.get ⟨i, h⟩ with last_seen := now }
          else state.get ⟨i, h⟩))
    ∧ (∀ c ∈ run, (stateKeys state).contains (make_job_key c) = false →
        newEntry now c ∈ mergeState state run now)
    ∧ (∀ c : Candidate, (newEntry now c).first_seen = now ∧ (newEntry now c).last_seen = now) := by
  refine ⟨fun i h => ?_, fun c hc hk => newEntry_mem_mergeState _ _ _ _ hc hk,
    fun c => ⟨rfl, rfl⟩⟩
  exact ⟨lt_of_lt_of_le h (length_le_mergeState state run now),
    mergeState_get state run now i h _⟩

/-- C3 witness: a two-entry state, one key reappearing and one absent,
plus one fresh key. -/
theorem claim_C3_witness :
    mergeState
        [⟨"c|s|t|l|u", "c", "s", "t", "l", "u", 1, 1⟩, ⟨"k2", "c", "s", "t", "l", "u", 2, 2⟩]
        [⟨"c", "s", "T", "l", "u", ""⟩] 9
      = [⟨"c|s|t|l|u", "c", "s", "t", "l", "u", 1, 9⟩, ⟨"k2", "c", "s", "t", "l", "u", 2, 2⟩]
      ∧ newEntry 9 ⟨"C", "S", "T", "L", "U", ""⟩
          ∈ mergeState [⟨"k1", "c", "s", "t", "l", "u", 1, 1⟩]
              [⟨"C", "S", "T", "L", "U", ""⟩] 9 := by
  constructor
  · decide
  · exact (claim_C3_lifecycle_frame [⟨"k1", "c", "s", "t", "l", "u", 1, 1⟩]
      [⟨"C", "S", "T", "L", "U", ""⟩] 9).2.1 _ (by decide) (by decide)

/-- C8: for a JobKey already tracked, a later merge preserves
`first_seen` and only ever moves `last_seen` to `now`, so across runs at
increasing timestamps `first_seen` never changes after its initial
assignment and `last_seen` is monotonically non-decreasing; a key first
observed now enters with `first_seen = last_seen = now`. -/
theorem claim_C8_lifecycle_monotonicity (state : List LifecycleEntry) (run : List Candidate)
    (now : Nat) (k : String) (e : LifecycleEntry)
    (h : state.find? (fun x => x.job_key == k) = some e)
    (hle : e.last_seen ≤ now) :
    ∃ e2, (mergeState state run now).find? (fun x => x.job_key == k) = some e2
      ∧ e2.first_seen = e.first_seen
      ∧ e.last_seen ≤ e2.last_seen
      ∧ (e2.last_seen = now ∨ e2.last_seen = e.last_seen) := by
  refine ⟨touchEntry run now e, find?_mergeState state run now k e h, ?_, ?_, ?_⟩
  · unfold touchEntry
    split <;> rfl
  · unfold touchEntry
    split
    · exact hle
    · exact le_refl _
  · unfold touchEntry
    split
    · exact Or.inl rfl
    · exact Or.inr rfl

/-- C8 witness: a key seen at time 1 and touched again at time 7 keeps
`first_seen = 1` and advances `last_seen` to 7. -/
theorem claim_C8_witness :
    ∃ e2, (mergeState [⟨"c|s|t|l|u", "c", "s", "t", "l", "u", 1, 1⟩]
        [⟨"c", "s", "t", "l", "u", ""⟩] 7).find?
          (fun x => x.job_key == "c|s|t|l|u") = some e2
      ∧ e2.first_seen = 1 ∧ 1 ≤ e2.last_seen
      ∧ (e2.last_seen = 7 ∨ e2.last_seen = 1) :=
  claim_C8_lifecycle_monotonicity
    [⟨"c|s|t|l|u", "c", "s", "t", "l", "u", 1, 1⟩]
    [⟨"c", "s", "t", "l", "u", ""⟩] 7 "c|s|t|l|u"
    ⟨"c|s|t|l|u", "c", "s", "t", "l", "u", 1, 1⟩ (by decide) (by decide)

/-- C9: a run never shrinks the persisted lifecycle state — whether the
run merges (the merge only updates in place and appends) or takes the
early return (the state table is left as it was), the entry count after
the run is at least the count before. -/
theorem claim_C9_never_shrinks (raw : List Candidate) (state : List LifecycleEntry)
    (now : Nat) :
    state.length ≤ ((run_all raw state now).stateOut.getD state).length := by
  simp only [run_all]
  split
  · exact le_refl _
  · exact length_le_mergeState state _ now

/-- An aged lifecycle entry; its age ties with `tieE2`'s. -/
def tieE1 : LifecycleEntry := ⟨"k1", "c", "s", "t", "l", "u", 0, 0⟩

/-- A second entry, later in state order, with the same age. -/
def tieE2 : LifecycleEntry := ⟨"k2", "c", "s", "t", "l", "u", 0, 0⟩

/-- C4 counterexample: two distinct entries of equal `age_days` (both
past the threshold) come out of the report in reversed state order, not
their original order — the descending sort reverses the ascending
argsort, ties included. -/
theorem claim_C4_counterexample :
    ageDays (28 * 86400) tieE1.first_seen = 28
    ∧ ageDays (28 * 86400) tieE2.first_seen = 28
    ∧ tieE1 ≠ tieE2
    ∧ agedOf [tieE1, tieE2] (28 * 86400) = [(tieE2, 28), (tieE1, 28)]
    ∧ agedOf [tieE1, tieE2] (28 * 86400) ≠ [(tieE1, 28), (tieE2, 28)] := by
  decide

/-- C4 amended: the aged report holds exactly the entries whose whole-day
age is at least 28 (an entry first seen exactly 28 days ago is included,
one at 27 days is excluded) and is sorted descending by `age_days`; no
particular order among entries of equal age is guaranteed (at the
counterexample input, ties appear in reversed state order). -/
theorem claim_C4_amended (st : List LifecycleEntry) (now : Nat) :
    (∀ p : LifecycleEntry × Nat,
      p ∈ agedOf st now ↔
        p ∈ (st.map (fun e => (e, ageDays now e.first_seen))).filter (fun p => 28 ≤ p.2))
    ∧ List.Sorted agedGE (agedOf st now)
    ∧ (∀ e ∈ st, e.first_seen + 28 * 86400 = now → (e, 28) ∈ agedOf st now)
    ∧ (∀ e ∈ st, e.first_seen + 27 * 86400 = now → ∀ a, (e, a) ∉ agedOf st now) := by
  refine ⟨fun p => ?_, ?_, ?_, ?_⟩
  · unfold agedOf
    rw [List.mem_reverse]
    exact List.mem_insertionSort agedLE
  · unfold agedOf
    exact List.pairwise_reverse.mpr (List.sorted_insertionSort agedLE _)
  · intro e he h28
    have ha : ageDays now e.first_seen = 28 := by
      have hsub : now - e.first_seen = 28 * 86400 := by omega
      unfold ageDays
      rw [hsub]
    unfold agedOf
    rw [List.mem_reverse]
    refine (List.mem_insertionSort agedLE).mpr (List.mem_filter.mpr ⟨?_, by norm_num⟩)
    have hb : (e, ageDays now e.first_seen)
        ∈ st.map (fun e => (e, ageDays now e.first_seen)) :=
      List.mem_map_of_mem _ he
    rwa [ha] at hb
  · intro e he h27 a hmem
    rw [agedOf, List.mem_reverse] at hmem
    have hmem2 := (List.mem_insertionSort agedLE).mp hmem
    rcases List.mem_filter.mp hmem2 with ⟨hm, hge⟩
    rcases List.mem_map.mp hm with ⟨x, _, hx⟩
    have hxe : x = e := congrArg Prod.fst hx
    have hax : ageDays now x.first_seen = a := congrArg Prod.snd hx
    have ha : ageDays now e.first_seen = 27 := by
      have hsub : now - e.first_seen = 27 * 86400 := by omega
      unfold ageDays
      rw [hsub]
    rw [hxe, ha] at hax
    rw [← hax] at hge
    exact absurd (of_decide_eq_true hge) (by norm_num)

/-- C4 witness: the 28-day-old entry is reported, the 27-day-old entry is
not. -/
theorem claim_C4_witness :
    (⟨"a", "c", "s", "t", "l", "u", 0, 0⟩, 28)
        ∈ agedOf [⟨"b", "c", "s", "t", "l", "u", 172800, 172800⟩,
                  ⟨"a", "c", "s", "t", "l", "u", 0, 0⟩] (28 * 86400)
    ∧ (∀ a : Nat, (⟨"a", "c", "s", "t", "l", "u", 86400, 86400⟩, a)
        ∉ agedOf [⟨"a", "c", "s", "t", "l", "u", 86400, 86400⟩] (28 * 86400)) := by
  constructor
  · exact (claim_C4_amended _ _).2.2.1 _ (by decide) (by decide)
  · exact (claim_C4_amended _ _).2.2.2 _ (by decide) (by decide)

/-- No blocklist reason collides with the shape-test reason. -/
theorem block_ne_not_title (p : String) : ("block:" ++ p) ≠ "not_title_like" := by
  intro h
  have hd := congrArg String.data h
  rw [String.data_append] at hd
  have h1 : "block:".data = ['b', 'l', 'o', 'c', 'k', ':'] := rfl
  have h2 : "not_title_like".data
      = ['n', 'o', 't', '_', 't', 'i', 't', 'l', 'e', '_', 'l', 'i', 'k', 'e'] := rfl
  rw [h1, h2] at hd
  simp [List.cons_append] at hd

/-- C7 counterexample: the 7-word title "Alpha Beta Gamma foo bar baz qux"
has 3 shaped words — fewer than half of 7 — and more than 6 words, yet
the classifier keeps it: the code compares against `max(1, n // 2)`
(integer half, here 3), not against half. -/
theorem claim_C7_counterexample :
    6 < (pySplit (pyStrip "Alpha Beta Gamma foo bar baz qux")).length
    ∧ 2 * ((pySplit (pyStrip "Alpha Beta Gamma foo bar baz qux")).filter wordShapeOk).length
        < (pySplit (pyStrip "Alpha Beta Gamma foo bar baz qux")).length
    ∧ filter_with_reason "Alpha Beta Gamma foo bar baz qux" "" = (true, "") := by
  decide

/-- C7 amended: when no earlier rule matches, the classifier rejects with
`not_title_like` exactly when the title has more than 6 words and fewer
than `max 1 (n / 2)` of them (integer half) are a 2–5 letter all-caps
acronym or a Title-Cased, optionally hyphenated word; titles with 6 or
fewer words are never rejected with this reason. -/
theorem claim_C7_amended :
    (∀ t d : String,
      tooShortRule (pyStrip t) (pyStrip d) = none →
      oneWordRule (pyStrip t) (pyStrip d) = none →
      contactRule (pyStrip t) (pyStrip d) = none →
      companyRule (pyStrip t) (pyStrip d) = none →
      allCapsRule (pyStrip t) (pyStrip d) = none →
      sentenceRule (pyStrip t) (pyStrip d) = none →
      blockRule (pyStrip t) (pyStrip d) = none →
      requirementRule (pyStrip t) (pyStrip d) = none →
      (filter_with_reason t d = (false, "not_title_like") ↔
        (((pySplit (pyStrip t)).filter wordShapeOk).length
            < max 1 ((pySplit (pyStrip t)).length / 2)
          ∧ 6 < (pySplit (pyStrip t)).length)))
    ∧ (∀ t d : String, (pySplit (pyStrip t)).length ≤ 6 →
        filter_with_reason t d ≠ (false, "not_title_like")) := by
  constructor
  · intro t d h1 h2 h3 h4 h5 h6 h7 h8
    rw [filter_with_reason_eq_chain]
    simp only [ruleOrder, applyRules, h1, h2, h3, h4, h5, h6, h7, h8, notTitleRule]
    have hsplit : pySplit (pyStrip t) ≠ [] := by
      intro hnil
      simp [oneWordRule, hnil] at h2
    have hni : (pySplit (pyStrip t)).isEmpty = false := List.isEmpty_eq_false.mpr hsplit
    by_cases hc : (!is_titlecase_like (pyStrip t)
        && decide (6 < (pySplit (pyStrip t)).length)) = true
    · simp only [hc, if_true]
      rcases Bool.and_eq_true_iff.mp hc with ⟨hcl, hcr⟩
      have hn6 : 6 < (pySplit (pyStrip t)).length := of_decide_eq_true hcr
      have htl : is_titlecase_like (pyStrip t) = false := by simpa using hcl
      simp only [is_titlecase_like, hni, Bool.false_eq_true, if_false,
        decide_eq_false_iff_not] at htl
      exact iff_of_true trivial ⟨Nat.lt_of_not_le htl, hn6⟩
    · simp only [hc, if_false]
      refine iff_of_false (by simp) ?_
      rintro ⟨hh, hn6⟩
      apply hc
      refine Bool.and_eq_true_iff.mpr ⟨?_, decide_eq_true hn6⟩
      have hfalse : is_titlecase_like (pyStrip t) = false := by
        simp only [is_titlecase_like, hni, Bool.false_eq_true, if_false,
          decide_eq_false_iff_not]
        exact Nat.not_le_of_lt hh
      simp [hfalse]
  · intro t d hw hcontra
    rw [filter_with_reason_eq_chain] at hcontra
    simp only [ruleOrder, applyRules] at hcontra
    cases hr1 : tooShortRule (pyStrip t) (pyStrip d) with
    | some s =>
      simp only [hr1] at hcontra
      have hs : s = "not_title_like" := congrArg Prod.snd hcontra
      rw [hs] at hr1
      simp only [tooShortRule] at hr1
      split at hr1
      · exact absurd hr1 (by decide)
      · exact Option.noConfusion hr1
    | none =>
    simp only [hr1] at hcontra
    cases hr2 : oneWordRule (pyStrip t) (pyStrip d) with
    | some s =>
      simp only [hr2] at hcontra
      have hs : s = "not_title_like" := congrArg Prod.snd hcontra
      rw [hs] at hr2
      simp only [oneWordRule] at hr2
      split at hr2
      · exact absurd hr2 (by decide)
      · exact Option.noConfusion hr2
    | none =>
    simp only [hr2] at hcontra
    cases hr3 : contactRule (pyStrip t) (pyStrip d) with
    | some s =>
      simp only [hr3] at hcontra
      have hs : s = "not_title_like" := congrArg Prod.snd hcontra
      rw [hs] at hr3
      simp only [contactRule] at hr3
      split at hr3
      · exact absurd hr3 (by decide)
      · exact Option.noConfusion hr3
    | none =>
    simp only [hr3] at hcontra
    cases hr4 : companyRule (pyStrip t) (pyStrip d) with
    | some s =>
      simp only [hr4] at hcontra
      have hs : s = "not_title_like" := congrArg Prod.snd hcontra
      rw [hs] at hr4
      simp only [companyRule] at hr4
      split at hr4
      · exact absurd hr4 (by decide)
      · exact Option.noConfusion hr4
    | none =>
    simp only [hr4] at hcontra
    cases hr5 : allCapsRule (pyStrip t) (pyStrip d) with
    | some s =>
      simp only [hr5] at hcontra
      have hs : s = "not_title_like" := congrArg Prod.snd hcontra
      rw [hs] at hr5
      simp only [allCapsRule] at hr5
      split at hr5
      · exact absurd hr5 (by decide)
      · exact Option.noConfusion hr5
    | none =>
    simp only [hr5] at hcontra
    cases hr6 : sentenceRule (pyStrip t) (pyStrip d) with
    | some s =>
      simp only [hr6] at hcontra
      have hs : s = "not_title_like" := congrArg Prod.snd hcontra
      rw [hs] at hr6
      simp only [sentenceRule] at hr6
      split at hr6
      · exact absurd hr6 (by decide)
      · exact Option.noConfusion hr6
    | none =>
    simp only [hr6] at hcontra
    cases hr7 : blockRule (pyStrip t) (pyStrip d) with
    | some s =>
      simp only [hr7] at hcontra
      have hs : s = "not_title_like" := congrArg Prod.snd hcontra
      rcases Option.map_eq_some'.mp hr7 with ⟨p, _, hp⟩
      rw [hs] at hp
      exact block_ne_not_title p hp
    | none =>
    simp only [hr7] at hcontra
    cases hr8 : requirementRule (pyStrip t) (pyStrip d) with
    | some s =>
      simp only [hr8] at hcontra
      have hs : s = "not_title_like" := congrArg Prod.snd hcontra
      rw [hs] at hr8
      simp only [requirementRule] at hr8
      split at hr8
      · exact absurd hr8 (by decide)
      · exact Option.noConfusion hr8
    | none =>
    simp only [hr8] at hcontra
    cases hr9 : notTitleRule (pyStrip t) (pyStrip d) with
    | some s =>
      simp only [notTitleRule] at hr9
      split at hr9
      · next hcnd =>
        have h6 : 6 < (pySplit (pyStrip t)).length :=
          of_decide_eq_true (Bool.and_eq_true_iff.mp hcnd).2
        omega
      · exact Option.noConfusion hr9
    | none =>
      simp only [hr9] at hcontra
      exact absurd (congrArg Prod.fst hcontra) (by decide)

/-- C7 witness: an 8-word lowercase title passes every earlier rule and
is rejected as `not_title_like`. -/
theorem claim_C7_amended_witness :
    filter_with_reason "aaa bbb ccc ddd eee fff ggg hhh" "" = (false, "not_title_like") :=
  (claim_C7_amended.1 "aaa bbb ccc ddd eee fff ggg hhh" ""
    (by decide) (by decide) (by decide) (by decide)
    (by decide) (by decide) (by decide) (by decide)).mpr ⟨by decide, by decide⟩

end JobScraper

